import Mathlib

/-!
Shallow embedding of the polybot trading core (executor, position ledger,
risk gate, backtest engine, performance analyzer) over exact rational
arithmetic.  Python floats are modelled as `ℚ`; Python's `round(x, 6)`
(round-half-to-even on the 6th decimal) is modelled exactly by `pyRound6`.
Fallible Python code paths (an uncaught exception) are modelled with
`Except Unit`.
-/

/-- Python's `round(x, 6)`: scale by `10^6`, round half to even, unscale. -/
def pyRound6 (x : ℚ) : ℚ :=
  let y := x * 1000000
  let f := ⌊y⌋
  let r := y - f
  let n : ℤ :=
    if r < 1/2 then f
    else if r > 1/2 then f + 1
    else if f % 2 = 0 then f else f + 1
  (n : ℚ) / 1000000

namespace PositionManager

/-- A stored position for one asset (`src/executor/position_manager.py`:
`size_usdc` and `average_price`; a missing record is `Option.none`). -/
structure PMPos where
  size_usdc : ℚ
  average_price : ℚ
deriving DecidableEq

/-- `PositionManager.update_after_trade` for a single asset
(`src/executor/position_manager.py`, lines 38-124).  Returns the new stored
position (`none` models a deleted record) and the realized P&L returned by
the Python method.  The arithmetic at those lines is exact; rounding to six
decimals happens separately in `db_manager` at persistence. -/
def updateAfterTrade (position : Option PMPos) (action : String)
    (price amount_usdc : ℚ) : Option PMPos × ℚ :=
  if action = "BUY" then
    match position with
    | none => (some ⟨amount_usdc, price⟩, 0)
    | some p =>
      let total_usdc := p.size_usdc + amount_usdc
      let new_avg := (p.average_price * p.size_usdc + price * amount_usdc) / total_usdc
      (some ⟨total_usdc, new_avg⟩, 0)
  else if action = "SELL" then
    match position with
    | none => (position, 0)
    | some p =>
      if p.size_usdc ≤ 0 then (position, 0)
      else
        let sell_usdc := min amount_usdc p.size_usdc
        let realized_pnl :=
          if p.average_price > 0 then
            sell_usdc * (price - p.average_price) / p.average_price
          else 0
        let remaining := p.size_usdc - sell_usdc
        if remaining ≤ 1/1000 then (none, realized_pnl)
        else (some ⟨remaining, p.average_price⟩, realized_pnl)
  else (position, 0)

/-- Fold a list of BUY fills `(price, notional)` through
`updateAfterTrade`, starting from a given stored position. -/
def foldBuys (position : Option PMPos) (buys : List (ℚ × ℚ)) : Option PMPos :=
  buys.foldl (fun st b => (updateAfterTrade st "BUY" b.1 b.2).1) position

end PositionManager

namespace OrderExecutor

/-- `OrderExecutor.calc_execution_price`
(`src/executor/order_executor.py`, lines 35-61). -/
def calcExecutionPrice (use_book_price : Bool) (slippage_bps : ℚ)
    (action : String) (price : ℚ) (best_bid best_ask : Option ℚ) : ℚ :=
  let base :=
    if use_book_price then
      if action = "BUY" ∧ best_ask.isSome then best_ask.getD price
      else if action = "SELL" ∧ best_bid.isSome then best_bid.getD price
      else price
    else price
  let slip := slippage_bps / 10000
  let exec_price := if action = "BUY" then base * (1 + slip) else base * (1 - slip)
  pyRound6 exec_price

end OrderExecutor

namespace RiskManager

/-- Static risk limits (`src/risk/risk_manager.py`, `__init__`). -/
structure RiskConfig where
  max_total_position_usdc : ℚ
  max_daily_loss_usdc : ℚ
  max_daily_trades : ℕ
  max_single_trade_usdc : ℚ
  cb_enabled : Bool
  cb_cooldown_minutes : ℚ
deriving DecidableEq

/-- Circuit-breaker state (`self._halted`, `self._halted_at`); the
timestamp is in minutes so that the cooldown comparison is direct. -/
structure BreakerState where
  halted : Bool
  halted_at : Option ℚ
deriving DecidableEq

/-- The external queries `check_order` makes: the clock, the position
manager's total exposure, today's trade count and today's realized P&L. -/
structure RiskEnv where
  now : ℚ
  total_position_usdc : ℚ
  trades_today : ℕ
  daily_pnl : ℚ
deriving DecidableEq

/-- Outcome of `check_order`: `allow` is the `return True` path; each
reject constructor is one of the distinctly logged `return False` sites. -/
inductive RiskDecision where
  | allow
  | rejectBreaker
  | rejectSingleTrade
  | rejectExposure
  | rejectDailyTrades
  | rejectDailyLoss
deriving DecidableEq

/-- `RiskManager._check_circuit_breaker`
(`src/risk/risk_manager.py`, lines 94-108).  Returns the halt verdict and
the possibly auto-cleared breaker state. -/
def checkCircuitBreaker (cfg : RiskConfig) (st : BreakerState) (now : ℚ) :
    Bool × BreakerState :=
  if ¬ st.halted then (false, st)
  else if ¬ cfg.cb_enabled then (false, st)
  else if now - st.halted_at.getD 0 ≥ cfg.cb_cooldown_minutes then
    (false, ⟨false, none⟩)
  else (true, st)

/-- `RiskManager.check_order` (`src/risk/risk_manager.py`, lines 43-92).
Checks run in source order: circuit breaker, single-trade cap, exposure
cap (BUY only), daily trade count, daily loss (which trips the breaker). -/
def checkOrder (cfg : RiskConfig) (st : BreakerState) (env : RiskEnv)
    (action : String) (amount_usdc : ℚ) : RiskDecision × BreakerState :=
  let cb := checkCircuitBreaker cfg st env.now
  if cb.1 = true then (.rejectBreaker, cb.2)
  else if amount_usdc > cfg.max_single_trade_usdc then (.rejectSingleTrade, cb.2)
  else if action = "BUY" ∧
      env.total_position_usdc + amount_usdc > cfg.max_total_position_usdc then
    (.rejectExposure, cb.2)
  else if env.trades_today ≥ cfg.max_daily_trades then (.rejectDailyTrades, cb.2)
  else if env.daily_pnl < -cfg.max_daily_loss_usdc then
    (.rejectDailyLoss, ⟨true, some env.now⟩)
  else (.allow, cb.2)

end RiskManager

namespace DatabaseManager

/-- One row of the `trades` table, restricted to the fields the claims
touch (`src/database/models.py` / `db_manager.save_trade`). -/
structure TradeRec where
  action : String
  price : ℚ
  amount_usdc : ℚ
  realized_pnl : Option ℚ
  reason : String
deriving DecidableEq

/-- `DatabaseManager.save_trade` (`src/database/db_manager.py`,
lines 146-172): appends a row, rounding `price`, `amount_usdc` and a
non-NULL `realized_pnl` to six decimals.  The log models the rows created
during the current UTC day. -/
def saveTrade (log : List TradeRec) (action : String) (price amount_usdc : ℚ)
    (realized_pnl : Option ℚ) (reason : String) : List TradeRec :=
  log ++ [⟨action, pyRound6 price, pyRound6 amount_usdc,
          realized_pnl.map pyRound6, reason⟩]

/-- `DatabaseManager.get_daily_pnl` (`src/database/db_manager.py`,
lines 186-197): `SUM(realized_pnl)` over today's rows, NULLs contributing
nothing, `COALESCE`d to 0. -/
def getDailyPnl (log : List TradeRec) : ℚ :=
  log.foldl (fun s r => s + r.realized_pnl.getD 0) 0

/-- `len(get_trades_since(today_start))` as used by the risk gate's daily
trade count (`src/database/db_manager.py`, lines 174-184): every row of
today's log counts, whether or not its `realized_pnl` is NULL. -/
def tradesTodayCount (log : List TradeRec) : ℕ := log.length

end DatabaseManager

namespace StrategyHandler

/-- A Python value in the `amount` field of a strategy signal: a number, a
string that `float()` parses, a string it does not, or `None`.  Ordered
comparison with `0` (`amount > 0`) succeeds only on numbers; `float(x)`
succeeds on numbers and numeric strings. -/
inductive PyVal where
  | num (q : ℚ)
  | numStr (q : ℚ)
  | strBad (s : String)
  | none
deriving DecidableEq

/-- Python `float(x)` as used in `_validate_signal` (`float(amount)`):
`some` on success, `none` when it raises `TypeError`/`ValueError`. -/
def pyFloat : PyVal → Option ℚ
  | .num q => some q
  | .numStr q => some q
  | .strBad _ => Option.none
  | .none => Option.none

/-- The mapping a strategy may return: the three `.get` keys of interest.
A missing key is `Option.none`; an explicit `None` value under `amount`
is `some PyVal.none`. -/
structure SignalDict where
  action : Option String
  amount : Option PyVal
  reason : Option String
deriving DecidableEq

/-- Outcome of calling the user's `calculate_signal`: it raised, returned
a non-mapping, or returned a mapping. -/
inductive StratResult where
  | raises
  | nonDict
  | dict (d : SignalDict)
deriving DecidableEq

/-- `StrategyHandler._validate_signal`
(`src/strategy/strategy_handler.py`, lines 187-209). -/
def validateSignal : StratResult → Bool
  | .dict d =>
    let action := d.action
    if action = some "BUY" ∨ action = some "SELL" ∨ action = some "HOLD" then
      if action = some "HOLD" then true
      else
        match d.amount with
        | Option.none => false
        | some v => (pyFloat v).isSome
    else false
  | _ => false

/-- The post-risk-check execution fragment of `StrategyHandler.handle_event`
(`src/strategy/strategy_handler.py`, lines 114-151): `OrderExecutor.execute`
saves the trade row (NULL `realized_pnl`) and returns the fill price;
`PositionManager.update_after_trade` computes the realized P&L; when that
P&L is non-zero a second row is saved with reason `"P&L update: ..."`.
Returns the new position, the new trade log and the realized P&L. -/
def executeTrade (use_book_price : Bool) (slippage_bps : ℚ)
    (position : Option PositionManager.PMPos) (log : List DatabaseManager.TradeRec)
    (action : String) (price amount : ℚ) (reason : String)
    (best_bid best_ask : Option ℚ) :
    Option PositionManager.PMPos × List DatabaseManager.TradeRec × ℚ :=
  let exec_price :=
    OrderExecutor.calcExecutionPrice use_book_price slippage_bps action price
      best_bid best_ask
  let log1 := DatabaseManager.saveTrade log action exec_price
      (pyRound6 amount) Option.none reason
  let upd := PositionManager.updateAfterTrade position action exec_price amount
  let log2 :=
    if upd.2 ≠ 0 then
      DatabaseManager.saveTrade log1 action exec_price amount (some upd.2)
        ("P&L update: " ++ reason)
    else log1
  (upd.1, log2, upd.2)

end StrategyHandler

namespace BacktestEngine

open StrategyHandler (PyVal SignalDict StratResult)

/-- A tick handed to `BacktestEngine.run`; `.get` defaults from the source
are pre-applied for the plain-string fields (`asset_id`, `market`), while
`price` and `timestamp` keep their possibly-absent shape. -/
structure Tick where
  asset_id : String
  price : Option ℚ
  market : String
  best_bid : Option ℚ
  best_ask : Option ℚ
  timestamp : Option String
deriving DecidableEq

/-- `backtest_engine._Position` (in-memory; zeroed on full close, the dict
entry is kept). -/
structure BPosition where
  asset_id : String
  market : String
  side : String
  size_usdc : ℚ
  average_price : ℚ
deriving DecidableEq

/-- One element of the `trades` result list. -/
structure BTrade where
  action : String
  asset_id : String
  price : ℚ
  amount_usdc : ℚ
  realized_pnl : ℚ
  reason : String
  timestamp : String
deriving DecidableEq

/-- One element of the `equity_curve` result list. -/
structure EquityPoint where
  timestamp : String
  equity : ℚ
  capital : ℚ
deriving DecidableEq

/-- The mapping handed to the strategy
(`BacktestEngine._build_signal_data`, same schema as the live handler). -/
structure SignalData where
  price : ℚ
  market_id : String
  history : List (ℚ × String)
  position_usdc : ℚ
  side : Option String
  best_bid : Option ℚ
  best_ask : Option ℚ
  timestamp : Option String
deriving DecidableEq

/-- Python-dict lookup on an insertion-ordered association list. -/
def alistGet {α : Type} (l : List (String × α)) (k : String) : Option α :=
  (l.find? (fun p => p.1 == k)).map Prod.snd

/-- Python-dict assignment: overwrite in place, or append a new key. -/
def alistSet {α : Type} : List (String × α) → String → α → List (String × α)
  | [], k, v => [(k, v)]
  | p :: rest, k, v =>
    if p.1 == k then (k, v) :: rest else p :: alistSet rest k v

/-- The mutable state threaded through `BacktestEngine.run`'s tick loop. -/
structure BState where
  capital : ℚ
  positions : List (String × BPosition)
  trades : List BTrade
  equity_curve : List EquityPoint
  history_buffers : List (String × List (ℚ × String))
  last_prices : List (String × ℚ)
deriving DecidableEq

/-- `BacktestEngine._calc_execution_price`
(`src/backtester/backtest_engine.py`, lines 219-241); same logic as
`OrderExecutor.calc_execution_price`, with `float()` coercion of the book
levels (identity on numeric levels). -/
def calcExecutionPrice (use_book_price : Bool) (slippage_bps : ℚ)
    (action : String) (price : ℚ) (best_bid best_ask : Option ℚ) : ℚ :=
  let base :=
    if use_book_price then
      if action = "BUY" ∧ best_ask.isSome then best_ask.getD price
      else if action = "SELL" ∧ best_bid.isSome then best_bid.getD price
      else price
    else price
  let slip := slippage_bps / 10000
  let exec_price := if action = "BUY" then base * (1 + slip) else base * (1 - slip)
  pyRound6 exec_price

/-- `BacktestEngine._process_buy` (`src/backtester/backtest_engine.py`,
lines 243-279).  `none` models the insufficient-funds `return None`;
otherwise returns (new capital, `amount_usdc`, new positions dict). -/
def processBuy (asset_id market : String) (exec_price amount_usdc capital : ℚ)
    (positions : List (String × BPosition)) :
    Option (ℚ × ℚ × List (String × BPosition)) :=
  if amount_usdc > capital then none
  else
    match alistGet positions asset_id with
    | none =>
      some (capital - amount_usdc, amount_usdc,
        alistSet positions asset_id ⟨asset_id, market, "BUY", amount_usdc, exec_price⟩)
    | some pos =>
      let total_usdc := pyRound6 (pos.size_usdc + amount_usdc)
      let new_avg := pyRound6
        ((pos.average_price * pos.size_usdc + exec_price * amount_usdc) / total_usdc)
      some (capital - amount_usdc, amount_usdc,
        alistSet positions asset_id
          { pos with size_usdc := total_usdc, average_price := new_avg })

/-- `BacktestEngine._process_sell` (`src/backtester/backtest_engine.py`,
lines 281-315).  `none` models the no-position `return None`; otherwise
returns (new capital, `sell_usdc`, `realized_pnl`, new positions dict). -/
def processSell (asset_id : String) (exec_price amount_usdc capital : ℚ)
    (positions : List (String × BPosition)) :
    Option (ℚ × ℚ × ℚ × List (String × BPosition)) :=
  match alistGet positions asset_id with
  | none => none
  | some pos =>
    if pos.size_usdc ≤ 0 then none
    else
      let sell_usdc := pyRound6 (min amount_usdc pos.size_usdc)
      let realized_pnl :=
        if pos.average_price > 0 then
          pyRound6 (sell_usdc * (exec_price - pos.average_price) / pos.average_price)
        else 0
      let remaining := pyRound6 (pos.size_usdc - sell_usdc)
      let pos' :=
        if remaining ≤ 1/1000 then
          { pos with size_usdc := 0, average_price := 0 }
        else { pos with size_usdc := remaining }
      some (capital + sell_usdc + realized_pnl, sell_usdc, realized_pnl,
        alistSet positions asset_id pos')

/-- `BacktestEngine._calc_equity` (`src/backtester/backtest_engine.py`,
lines 317-330): capital plus `size * last_price / average_price` over open
positions, rounded to six decimals. -/
def calcEquity (capital : ℚ) (positions : List (String × BPosition))
    (last_prices : List (String × ℚ)) : ℚ :=
  pyRound6 (positions.foldl
    (fun equity p =>
      if p.2.size_usdc ≤ 0 ∨ p.2.average_price ≤ 0 then equity
      else equity +
        p.2.size_usdc * ((alistGet last_prices p.1).getD p.2.average_price) /
          p.2.average_price)
    capital)

/-- `BacktestEngine._build_signal_data` (`src/backtester/backtest_engine.py`,
lines 190-217). -/
def buildSignalData (tick : Tick) (asset_id : String) (price : ℚ)
    (positions : List (String × BPosition))
    (history_buffers : List (String × List (ℚ × String))) : SignalData :=
  let pos := alistGet positions asset_id
  { price := price
    market_id := tick.market
    history := (alistGet history_buffers asset_id).getD []
    position_usdc := (pos.map (fun p => p.size_usdc)).getD 0
    side := pos.map (fun p => p.side)
    best_bid := tick.best_bid
    best_ask := tick.best_ask
    timestamp := tick.timestamp }

/-- Lines 77-86 of the tick loop: record `last_prices[asset_id]` and
append to the bounded (`deque(maxlen=100)`) history buffer. -/
def ingestTick (st : BState) (tick : Tick) (price : ℚ) : BState :=
  let buf := (alistGet st.history_buffers tick.asset_id).getD [] ++
    [(price, tick.timestamp.getD "")]
  let buf := if 100 < buf.length then buf.drop (buf.length - 100) else buf
  { st with
    last_prices := alistSet st.last_prices tick.asset_id price
    history_buffers := alistSet st.history_buffers tick.asset_id buf }

/-- Lines 103-144 of the tick loop: extract `action`/`amount`/`reason`
with `.get` defaults and run the BUY / SELL branch.  The guard
`amount > 0` compares a Python value with `0`; on a non-numeric `amount`
that comparison raises an uncaught `TypeError`, modelled as `.error ()`.
The guard is short-circuited exactly as in
`if action == "BUY" and amount > 0 ... elif action == "SELL" and amount > 0`. -/
def tradePhase (use_book_price : Bool) (slippage_bps : ℚ) (tick : Tick)
    (price : ℚ) (d : SignalDict) (capital : ℚ)
    (positions : List (String × BPosition)) (trades : List BTrade) :
    Except Unit (ℚ × List (String × BPosition) × List BTrade) :=
  let action := d.action.getD "HOLD"
  let amount := d.amount.getD (.num 0)
  let reason := d.reason.getD ""
  if action = "BUY" then
    match amount with
    | .num q =>
      if q > 0 then
        let exec_price :=
          calcExecutionPrice use_book_price slippage_bps "BUY" price
            tick.best_bid tick.best_ask
        match processBuy tick.asset_id tick.market exec_price q capital
            positions with
        | none => .ok (capital, positions, trades)
        | some (capital', amt, positions') =>
          .ok (capital', positions',
            trades ++ [⟨"BUY", tick.asset_id, exec_price, amt, 0, reason,
              tick.timestamp.getD ""⟩])
      else .ok (capital, positions, trades)
    | _ => .error ()
  else if action = "SELL" then
    match amount with
    | .num q =>
      if q > 0 then
        let exec_price :=
          calcExecutionPrice use_book_price slippage_bps "SELL" price
            tick.best_bid tick.best_ask
        match processSell tick.asset_id exec_price q capital positions with
        | none => .ok (capital, positions, trades)
        | some (capital', sell, pnl, positions') =>
          .ok (capital', positions',
            trades ++ [⟨"SELL", tick.asset_id, exec_price, sell, pnl, reason,
              tick.timestamp.getD ""⟩])
      else .ok (capital, positions, trades)
    | _ => .error ()
  else .ok (capital, positions, trades)

/-- Lines 146-152: append one equity-curve point for the tick. -/
def recordEquity (tick : Tick) (st : BState) : BState :=
  { st with equity_curve := st.equity_curve ++
      [⟨tick.timestamp.getD "",
        calcEquity st.capital st.positions st.last_prices, st.capital⟩] }

/-- One iteration of the tick loop of `BacktestEngine.run`
(`src/backtester/backtest_engine.py`, lines 71-152).  Ticks without a
price or with an empty `asset_id` are skipped; a strategy exception or a
non-mapping return `continue`s past trading AND past the equity record. -/
def runStep (strat : SignalData → StratResult) (use_book_price : Bool)
    (slippage_bps : ℚ) (st : BState) (tick : Tick) : Except Unit BState :=
  match tick.price with
  | none => .ok st
  | some price =>
    if tick.asset_id = "" then .ok st
    else
      let st1 := ingestTick st tick price
      let sd := buildSignalData tick tick.asset_id price st1.positions
        st1.history_buffers
      match strat sd with
      | .raises => .ok st1
      | .nonDict => .ok st1
      | .dict d =>
        match tradePhase use_book_price slippage_bps tick price d st1.capital
            st1.positions st1.trades with
        | .error e => .error e
        | .ok (capital', positions', trades') =>
          .ok (recordEquity tick
            { st1 with
              capital := capital'
              positions := positions'
              trades := trades' })

/-- The tick loop folded over the whole tick list. -/
def runLoop (strat : SignalData → StratResult) (use_book_price : Bool)
    (slippage_bps : ℚ) : BState → List Tick → Except Unit BState
  | st, [] => .ok st
  | st, tick :: ticks =>
    match runStep strat use_book_price slippage_bps st tick with
    | .error e => .error e
    | .ok st' => runLoop strat use_book_price slippage_bps st' ticks

/-- Lines 154-173: force-close every open position at its last observed
price, iterating over a snapshot of the dict's keys in insertion order. -/
def forcedCloseLoop (last_prices : List (String × ℚ)) :
    List String → ℚ → List (String × BPosition) → List BTrade →
    ℚ × List (String × BPosition) × List BTrade
  | [], capital, positions, trades => (capital, positions, trades)
  | asset_id :: rest, capital, positions, trades =>
    match alistGet positions asset_id with
    | none => forcedCloseLoop last_prices rest capital positions trades
    | some pos =>
      if pos.size_usdc ≤ 0 then
        forcedCloseLoop last_prices rest capital positions trades
      else
        let close_price := (alistGet last_prices asset_id).getD pos.average_price
        match processSell asset_id close_price pos.size_usdc capital positions with
        | none => forcedCloseLoop last_prices rest capital positions trades
        | some (capital', sell, pnl, positions') =>
          forcedCloseLoop last_prices rest capital' positions'
            (trades ++ [⟨"SELL", asset_id, close_price, sell, pnl,
              "バックテスト終了: 強制クローズ", ""⟩])

/-- The dict returned by `BacktestEngine.run` (lines 175-188); `positions`
keeps only entries with positive size, as `(asset_id, size, avg)`. -/
structure RunResult where
  trades : List BTrade
  equity_curve : List EquityPoint
  final_capital : ℚ
  initial_capital : ℚ
  positions : List (String × ℚ × ℚ)
deriving DecidableEq

/-- `BacktestEngine.run` (`src/backtester/backtest_engine.py`, lines
55-188): the tick loop, then the forced close, then the result dict.
`.error ()` models an exception escaping `run`. -/
def run (strat : SignalData → StratResult) (initial_capital : ℚ)
    (use_book_price : Bool) (slippage_bps : ℚ) (ticks : List Tick) :
    Except Unit RunResult :=
  match runLoop strat use_book_price slippage_bps
      ⟨initial_capital, [], [], [], [], []⟩ ticks with
  | .error e => .error e
  | .ok st =>
    let closed := forcedCloseLoop st.last_prices (st.positions.map Prod.fst)
      st.capital st.positions st.trades
    .ok { trades := closed.2.2
          equity_curve := st.equity_curve
          final_capital := closed.1
          initial_capital := initial_capital
          positions := (closed.2.1.filter (fun p => p.2.size_usdc > 0)).map
            (fun p => (p.1, p.2.size_usdc, p.2.average_price)) }

/-- The step-1 filter of the tick loop: the tick has a price and a
non-empty `asset_id`. -/
def tickPasses (t : Tick) : Bool := t.price.isSome && t.asset_id != ""

/-- Whether an `Except` result is a success. -/
def exceptIsOk {ε α : Type} : Except ε α → Bool
  | .ok _ => true
  | .error _ => false

end BacktestEngine

namespace PerformanceAnalyzer

/-- `np.maximum.accumulate` tail: running maxima continuing from `m`. -/
def accMaxAux (m : ℚ) : List ℚ → List ℚ
  | [] => []
  | e :: es => (max m e) :: accMaxAux (max m e) es

/-- `np.maximum.accumulate` over the equity list. -/
def accMax : List ℚ → List ℚ
  | [] => []
  | e :: es => e :: accMaxAux e es

/-- One drawdown entry: `(running_max - equity) / safe_max * 100` with the
`np.where(running_max > 0, running_max, 1.0)` guard. -/
def ddOf (m e : ℚ) : ℚ := (m - e) / (if 0 < m then m else 1) * 100

/-- `PerformanceAnalyzer._calc_max_drawdown`
(`src/backtester/performance_analyzer.py`, lines 105-120). -/
def calcMaxDrawdown (equities : List ℚ) : ℚ :=
  match equities with
  | [] => 0
  | _ :: _ =>
    let dds := ((accMax equities).zip equities).map (fun p => ddOf p.1 p.2)
    dds.foldl max (dds.headI)

/-- The claim's index-wise running maximum: the maximum of the first
`i + 1` equity values. -/
def specRunMax (equities : List ℚ) (i : ℕ) : ℚ :=
  (equities.take (i + 1)).foldl max (equities.headI)

end PerformanceAnalyzer

/-! ## Helper lemmas -/

lemma pyRound6_int (m : ℤ) : pyRound6 ((m : ℚ) / 1000000) = (m : ℚ) / 1000000 := by
  simp only [pyRound6]
  have hy : (m : ℚ) / 1000000 * 1000000 = (m : ℚ) :=
    div_mul_cancel₀ _ (by norm_num)
  rw [hy]
  norm_num

lemma pyRound6_idem (x : ℚ) : pyRound6 (pyRound6 x) = pyRound6 x := by
  have h : ∃ m : ℤ, pyRound6 x = (m : ℚ) / 1000000 := ⟨_, rfl⟩
  obtain ⟨m, hm⟩ := h
  rw [hm, pyRound6_int]

lemma getDailyPnl_foldl (l : List DatabaseManager.TradeRec) :
    ∀ s : ℚ, l.foldl (fun s r => s + r.realized_pnl.getD 0) s =
      s + DatabaseManager.getDailyPnl l := by
  induction l with
  | nil => intro s; simp [DatabaseManager.getDailyPnl]
  | cons r rest ih =>
    intro s
    simp only [DatabaseManager.getDailyPnl, List.foldl_cons] at *
    rw [ih (s + r.realized_pnl.getD 0), ih (0 + r.realized_pnl.getD 0)]
    ring

lemma getDailyPnl_append (l l' : List DatabaseManager.TradeRec) :
    DatabaseManager.getDailyPnl (l ++ l') =
      DatabaseManager.getDailyPnl l + DatabaseManager.getDailyPnl l' := by
  simp only [DatabaseManager.getDailyPnl, List.foldl_append]
  rw [getDailyPnl_foldl]
  simp only [DatabaseManager.getDailyPnl]

/-! ## Claims -/

/-- **C1.**  For every action, raw price and optional book levels, with
the same `use_book_price` flag and the same `slippage_bps` value,
`OrderExecutor.calc_execution_price` and
`BacktestEngine._calc_execution_price` return exactly the same fill
price. -/
theorem c1_pricing_parity (use_book_price : Bool) (slippage_bps : ℚ)
    (action : String) (price : ℚ) (best_bid best_ask : Option ℚ) :
    OrderExecutor.calcExecutionPrice use_book_price slippage_bps action price
        best_bid best_ask =
      BacktestEngine.calcExecutionPrice use_book_price slippage_bps action price
        best_bid best_ask := rfl

lemma updateAfterTrade_sell (size avg price amount : ℚ) (hgt : ¬ size ≤ 0) :
    PositionManager.updateAfterTrade (some ⟨size, avg⟩) "SELL" price amount =
      ((if size - min amount size ≤ 1/1000 then Option.none
        else some ⟨size - min amount size, avg⟩),
       if avg > 0 then min amount size * (price - avg) / avg else 0) := by
  have hba : (("SELL" : String) = "BUY") = False := eq_false (by decide)
  have hss : (("SELL" : String) = "SELL") = True := eq_true rfl
  have hsz : (size ≤ (0:ℚ)) = False := eq_false hgt
  simp only [PositionManager.updateAfterTrade, hba, hss, hsz, if_true, if_false]
  split_ifs <;> rfl

lemma updateAfterTrade_buy_existing (size avg price amount : ℚ) :
    PositionManager.updateAfterTrade (some ⟨size, avg⟩) "BUY" price amount =
      (some ⟨size + amount, (avg * size + price * amount) / (size + amount)⟩, 0) :=
  rfl

/-- **C3.**  A SELL on an existing position with `size > 0` sells
`min(requested, size)`; the realized P&L is `sold * (p - avg) / avg` when
`avg > 0` and `0` otherwise; the position is deleted when
`size - sold ≤ 0.001` and otherwise keeps its `average_price` with size
reduced; an oversized SELL realizes P&L on the capped notional only. -/
theorem c3_sell_cap_and_pnl (size avg price amount : ℚ) (hsize : 0 < size) :
    ((PositionManager.updateAfterTrade (some ⟨size, avg⟩) "SELL" price amount).2 =
        if 0 < avg then min amount size * (price - avg) / avg else 0)
    ∧ (size - min amount size ≤ 1/1000 →
        (PositionManager.updateAfterTrade (some ⟨size, avg⟩) "SELL" price amount).1 =
          Option.none)
    ∧ (¬ size - min amount size ≤ 1/1000 →
        (PositionManager.updateAfterTrade (some ⟨size, avg⟩) "SELL" price amount).1 =
          some ⟨size - min amount size, avg⟩)
    ∧ (size ≤ amount →
        (PositionManager.updateAfterTrade (some ⟨size, avg⟩) "SELL" price amount).2 =
          if 0 < avg then size * (price - avg) / avg else 0) := by
  have hgt : ¬ size ≤ 0 := not_le.mpr hsize
  rw [updateAfterTrade_sell size avg price amount hgt]
  refine ⟨rfl, ?_, ?_, ?_⟩
  · intro hrem
    simp only [if_pos hrem]
  · intro hrem
    simp only [if_neg hrem]
  · intro hcap
    simp only [min_eq_right hcap]

/-- Witness for C3 at P4's numbers: BUY 50 @ 0.50 held, SELL 100 @ 0.60
realizes P&L on the capped 50 and deletes the position. -/
theorem c3_sell_cap_and_pnl_witness :
    (PositionManager.updateAfterTrade (some ⟨50, 1/2⟩) "SELL" (3/5) 100).2 = 10
    ∧ (PositionManager.updateAfterTrade (some ⟨50, 1/2⟩) "SELL" (3/5) 100).1 =
        Option.none := by
  have h := c3_sell_cap_and_pnl 50 (1/2) (3/5) 100 (by norm_num)
  constructor
  · rw [h.1]; norm_num
  · exact h.2.1 (by norm_num)

lemma foldBuys_nil (st : Option PositionManager.PMPos) :
    PositionManager.foldBuys st [] = st := rfl

lemma foldBuys_cons (st : Option PositionManager.PMPos) (b : ℚ × ℚ)
    (rest : List (ℚ × ℚ)) :
    PositionManager.foldBuys st (b :: rest) =
      PositionManager.foldBuys
        (PositionManager.updateAfterTrade st "BUY" b.1 b.2).1 rest := rfl

lemma foldBuys_some (buys : List (ℚ × ℚ)) :
    ∀ size avg : ℚ, 0 < size → (∀ b ∈ buys, 0 < b.2) →
      PositionManager.foldBuys (some ⟨size, avg⟩) buys =
        some ⟨size + (buys.map Prod.snd).sum,
          (avg * size + (buys.map (fun b => b.1 * b.2)).sum) /
            (size + (buys.map Prod.snd).sum)⟩ := by
  induction buys with
  | nil =>
    intro size avg hsize _
    rw [foldBuys_nil]
    simp only [List.map_nil, List.sum_nil, add_zero]
    congr 1
    have : avg * size / size = avg := by
      field_simp
    rw [this]
  | cons b rest ih =>
    intro size avg hsize hpos
    have hb : 0 < b.2 := hpos b (List.mem_cons_self b rest)
    rw [foldBuys_cons, updateAfterTrade_buy_existing,
      ih (size + b.2) _ (by linarith) (fun x hx => hpos x (List.mem_cons_of_mem b hx))]
    have hne : size + b.2 ≠ 0 := by linarith
    have hnum : (avg * size + b.1 * b.2) / (size + b.2) * (size + b.2) =
        avg * size + b.1 * b.2 := div_mul_cancel₀ _ hne
    simp only [List.map_cons, List.sum_cons, hnum, Option.some.injEq,
      PositionManager.PMPos.mk.injEq]
    constructor <;> ring

/-- **C4.**  A sequence of BUY fills on a fresh position yields
`size = Σ nᵢ` and `average_price = Σ pᵢnᵢ / Σ nᵢ`, and each BUY on an
existing position computes
`new_avg = (avg * size + p * n) / (size + n)`. -/
theorem c4_weighted_average (buys : List (ℚ × ℚ)) (hne : buys ≠ [])
    (hpos : ∀ b ∈ buys, 0 < b.2) :
    PositionManager.foldBuys Option.none buys =
      some ⟨(buys.map Prod.snd).sum,
        (buys.map (fun b => b.1 * b.2)).sum / (buys.map Prod.snd).sum⟩
    ∧ ∀ size avg p n : ℚ,
        (PositionManager.updateAfterTrade (some ⟨size, avg⟩) "BUY" p n).1 =
          some ⟨size + n, (avg * size + p * n) / (size + n)⟩ := by
  constructor
  · match buys, hne with
    | b :: rest, _ =>
      have hb : 0 < b.2 := hpos b (List.mem_cons_self b rest)
      have hfirst :
          (PositionManager.updateAfterTrade Option.none "BUY" b.1 b.2).1 =
            some ⟨b.2, b.1⟩ := rfl
      rw [foldBuys_cons, hfirst,
        foldBuys_some rest b.2 b.1 hb
          (fun x hx => hpos x (List.mem_cons_of_mem b hx))]
      simp only [List.map_cons, List.sum_cons, Option.some.injEq,
        PositionManager.PMPos.mk.injEq]
  · intro size avg p n
    rw [updateAfterTrade_buy_existing]

/-- Witness for C4: BUY 50 @ 0.50 then BUY 150 @ 0.70 gives size 200 and
weighted average 0.65. -/
theorem c4_weighted_average_witness :
    PositionManager.foldBuys Option.none [(1/2, 50), (7/10, 150)] =
      some ⟨200, 13/20⟩ := by
  have h := (c4_weighted_average [(1/2, 50), (7/10, 150)] (by simp)
    (by intro b hb; fin_cases hb <;> norm_num)).1
  rw [h]
  norm_num

lemma calcExecutionPrice_buy (slippage_bps price : ℚ) (best_bid best_ask : Option ℚ) :
    OrderExecutor.calcExecutionPrice true slippage_bps "BUY" price best_bid best_ask =
      pyRound6 ((best_ask.getD price) * (1 + slippage_bps / 10000)) := by
  cases best_ask <;> simp [OrderExecutor.calcExecutionPrice]

lemma calcExecutionPrice_sell (slippage_bps price : ℚ) (best_bid best_ask : Option ℚ) :
    OrderExecutor.calcExecutionPrice true slippage_bps "SELL" price best_bid best_ask =
      pyRound6 ((best_bid.getD price) * (1 - slippage_bps / 10000)) := by
  cases best_bid <;> simp [OrderExecutor.calcExecutionPrice]

/-- **C7.**  With book pricing, the BUY fill is
`round6(base_ask * (1 + bps/10000))` and the SELL fill is
`round6(base_bid * (1 - bps/10000))` (base falling back to the raw price
when the book level is absent); for `bps ≥ 0` the pre-rounding fill moves
against the trader, and P5's concrete values come out to 0.6161/0.5841. -/
theorem c7_slippage_direction (slippage_bps price : ℚ)
    (best_bid best_ask : Option ℚ) (hbps : 0 ≤ slippage_bps) :
    (OrderExecutor.calcExecutionPrice true slippage_bps "BUY" price best_bid
        best_ask = pyRound6 ((best_ask.getD price) * (1 + slippage_bps / 10000)))
    ∧ (OrderExecutor.calcExecutionPrice true slippage_bps "SELL" price best_bid
        best_ask = pyRound6 ((best_bid.getD price) * (1 - slippage_bps / 10000)))
    ∧ (0 ≤ best_ask.getD price →
        best_ask.getD price ≤ (best_ask.getD price) * (1 + slippage_bps / 10000))
    ∧ (0 ≤ best_bid.getD price →
        (best_bid.getD price) * (1 - slippage_bps / 10000) ≤ best_bid.getD price)
    ∧ OrderExecutor.calcExecutionPrice true 100 "BUY" (3/5) (some (59/100))
        (some (61/100)) = 6161/10000
    ∧ OrderExecutor.calcExecutionPrice true 100 "SELL" (3/5) (some (59/100))
        (some (61/100)) = 5841/10000 := by
  refine ⟨calcExecutionPrice_buy _ _ _ _, calcExecutionPrice_sell _ _ _ _,
    ?_, ?_, ?_, ?_⟩
  · intro hbase
    nlinarith [mul_nonneg hbase (by positivity : (0:ℚ) ≤ slippage_bps / 10000)]
  · intro hbase
    nlinarith [mul_nonneg hbase (by positivity : (0:ℚ) ≤ slippage_bps / 10000)]
  · rw [calcExecutionPrice_buy]
    norm_num [pyRound6]
  · rw [calcExecutionPrice_sell]
    norm_num [pyRound6]

/-- Witness for C7 at P5's input. -/
theorem c7_slippage_direction_witness :
    OrderExecutor.calcExecutionPrice true 100 "BUY" (3/5) (some (59/100))
        (some (61/100)) = 6161/10000
    ∧ OrderExecutor.calcExecutionPrice true 100 "SELL" (3/5) (some (59/100))
        (some (61/100)) = 5841/10000 :=
  ⟨(c7_slippage_direction 100 (3/5) (some (59/100)) (some (61/100))
      (by norm_num)).2.2.2.2.1,
   (c7_slippage_direction 100 (3/5) (some (59/100)) (some (61/100))
      (by norm_num)).2.2.2.2.2⟩

/-- **C5.**  `check_order` evaluates its limits in the fixed order
breaker → single-trade cap → exposure (BUY only) → daily count → daily
loss, stopping at the first failure: each rejection implies every earlier
check passed, `allow` holds iff all checks pass, a SELL's outcome is
independent of the exposure and is never `rejectExposure`, and a
single-trade breach is rejected (with no breaker trip) regardless of the
exposure, daily-count and daily-loss inputs. -/
theorem c5_check_order_ordering (cfg : RiskManager.RiskConfig)
    (st : RiskManager.BreakerState) (env : RiskManager.RiskEnv)
    (action : String) (amount : ℚ) :
    ((RiskManager.checkOrder cfg st env action amount).1 = .rejectBreaker ↔
      (RiskManager.checkCircuitBreaker cfg st env.now).1 = true)
    ∧ ((RiskManager.checkOrder cfg st env action amount).1 = .rejectSingleTrade →
        (RiskManager.checkCircuitBreaker cfg st env.now).1 = false ∧
          amount > cfg.max_single_trade_usdc)
    ∧ ((RiskManager.checkOrder cfg st env action amount).1 = .rejectExposure →
        (RiskManager.checkCircuitBreaker cfg st env.now).1 = false ∧
          ¬ amount > cfg.max_single_trade_usdc ∧ action = "BUY" ∧
          env.total_position_usdc + amount > cfg.max_total_position_usdc)
    ∧ ((RiskManager.checkOrder cfg st env action amount).1 = .rejectDailyTrades →
        (RiskManager.checkCircuitBreaker cfg st env.now).1 = false ∧
          ¬ amount > cfg.max_single_trade_usdc ∧
          ¬ (action = "BUY" ∧
            env.total_position_usdc + amount > cfg.max_total_position_usdc) ∧
          env.trades_today ≥ cfg.max_daily_trades)
    ∧ ((RiskManager.checkOrder cfg st env action amount).1 = .rejectDailyLoss →
        (RiskManager.checkCircuitBreaker cfg st env.now).1 = false ∧
          ¬ amount > cfg.max_single_trade_usdc ∧
          ¬ (action = "BUY" ∧
            env.total_position_usdc + amount > cfg.max_total_position_usdc) ∧
          ¬ env.trades_today ≥ cfg.max_daily_trades ∧
          env.daily_pnl < -cfg.max_daily_loss_usdc)
    ∧ ((RiskManager.checkOrder cfg st env action amount).1 = .allow ↔
        (RiskManager.checkCircuitBreaker cfg st env.now).1 = false ∧
          ¬ amount > cfg.max_single_trade_usdc ∧
          ¬ (action = "BUY" ∧
            env.total_position_usdc + amount > cfg.max_total_position_usdc) ∧
          ¬ env.trades_today ≥ cfg.max_daily_trades ∧
          ¬ env.daily_pnl < -cfg.max_daily_loss_usdc)
    ∧ (action = "SELL" → ∀ exposure : ℚ,
        RiskManager.checkOrder cfg st
            ⟨env.now, exposure, env.trades_today, env.daily_pnl⟩ action amount =
          RiskManager.checkOrder cfg st env action amount)
    ∧ (action = "SELL" →
        (RiskManager.checkOrder cfg st env action amount).1 ≠ .rejectExposure)
    ∧ ((RiskManager.checkCircuitBreaker cfg st env.now).1 = false →
        amount > cfg.max_single_trade_usdc →
        RiskManager.checkOrder cfg st env action amount =
          (.rejectSingleTrade, (RiskManager.checkCircuitBreaker cfg st env.now).2)) := by
  have hsb : ¬ ("SELL" : String) = "BUY" := by decide
  rcases hcb : RiskManager.checkCircuitBreaker cfg st env.now with ⟨b, st'⟩
  cases b
  · refine ⟨?_, ?_, ?_, ?_, ?_, ?_, ?_, ?_, ?_⟩
    · constructor
      · intro h
        simp only [RiskManager.checkOrder, hcb] at h
        split_ifs at h <;> simp_all
      · intro h
        simp at h
    · intro h
      simp only [RiskManager.checkOrder, hcb] at h
      split_ifs at h <;> simp_all
    · intro h
      simp only [RiskManager.checkOrder, hcb] at h
      split_ifs at h <;> simp_all
    · intro h
      simp only [RiskManager.checkOrder, hcb] at h
      split_ifs at h <;> simp_all
    · intro h
      simp only [RiskManager.checkOrder, hcb] at h
      split_ifs at h <;> simp_all
    · constructor
      · intro h
        simp only [RiskManager.checkOrder, hcb] at h
        split_ifs at h <;> simp_all
      · rintro ⟨-, h2, h3, h4, h5⟩
        simp only [RiskManager.checkOrder, hcb]
        rw [if_neg (by simp), if_neg h2, if_neg h3, if_neg h4, if_neg h5]
    · intro ha exposure
      subst ha
      simp only [RiskManager.checkOrder]
      have hfalse : ∀ e : ℚ, (("SELL" : String) = "BUY" ∧
          e + amount > cfg.max_total_position_usdc) = False :=
        fun e => eq_false (fun h => hsb h.1)
      simp only [hfalse, if_false]
    · intro ha h
      subst ha
      simp only [RiskManager.checkOrder, hcb] at h
      split_ifs at h <;> simp_all
    · intro _ h2
      simp only [RiskManager.checkOrder, hcb]
      rw [if_neg (by simp), if_pos h2]
  · refine ⟨?_, ?_, ?_, ?_, ?_, ?_, ?_, ?_, ?_⟩ <;>
      simp_all [RiskManager.checkOrder, hcb]

/-- Witness for C5: with the breaker off, an order of 200 over a
single-trade cap of 100 is rejected as a single-trade breach even though
exposure, daily count and daily loss would all pass. -/
theorem c5_check_order_ordering_witness :
    RiskManager.checkOrder ⟨1000, 100, 50, 100, true, 60⟩ ⟨false, Option.none⟩
        ⟨0, 0, 0, 0⟩ "BUY" 200 =
      (.rejectSingleTrade, ⟨false, Option.none⟩) := by
  have h := (c5_check_order_ordering ⟨1000, 100, 50, 100, true, 60⟩
    ⟨false, Option.none⟩ ⟨0, 0, 0, 0⟩ "BUY" 200).2.2.2.2.2.2.2.2
  have hcb : RiskManager.checkCircuitBreaker ⟨1000, 100, 50, 100, true, 60⟩
      ⟨false, Option.none⟩ (0:ℚ) = (false, ⟨false, Option.none⟩) := rfl
  have := h (by rw [hcb]) (by norm_num)
  simpa [hcb] using this

/-- **C6.**  The circuit breaker is a two-state machine: a daily-loss
breach (with all earlier checks passing) rejects the order and sets
`halted = true`, `halted_at = now`; while halted with the breaker enabled
and the cooldown not yet elapsed every call is rejected with the state
unchanged; on the first check at or after the cooldown the call behaves
exactly as from the cleared state `⟨false, none⟩`, whose breaker check
reports not-halted, so the order proceeds to the remaining checks. -/
theorem c6_circuit_breaker (cfg : RiskManager.RiskConfig)
    (env : RiskManager.RiskEnv) (action : String) (amount : ℚ) :
    (∀ st : RiskManager.BreakerState,
      (RiskManager.checkCircuitBreaker cfg st env.now).1 = false →
      ¬ amount > cfg.max_single_trade_usdc →
      ¬ (action = "BUY" ∧
        env.total_position_usdc + amount > cfg.max_total_position_usdc) →
      ¬ env.trades_today ≥ cfg.max_daily_trades →
      env.daily_pnl < -cfg.max_daily_loss_usdc →
      RiskManager.checkOrder cfg st env action amount =
        (.rejectDailyLoss, ⟨true, some env.now⟩))
    ∧ (∀ t : ℚ, cfg.cb_enabled = true →
        env.now - t < cfg.cb_cooldown_minutes →
        RiskManager.checkOrder cfg ⟨true, some t⟩ env action amount =
          (.rejectBreaker, ⟨true, some t⟩))
    ∧ (∀ t : ℚ, cfg.cb_enabled = true →
        env.now - t ≥ cfg.cb_cooldown_minutes →
        RiskManager.checkOrder cfg ⟨true, some t⟩ env action amount =
          RiskManager.checkOrder cfg ⟨false, Option.none⟩ env action amount
        ∧ (RiskManager.checkCircuitBreaker cfg ⟨false, Option.none⟩ env.now).1 =
            false) := by
  refine ⟨?_, ?_, ?_⟩
  · intro st hcb h2 h3 h4 h5
    rcases hcb' : RiskManager.checkCircuitBreaker cfg st env.now with ⟨b, st'⟩
    rw [hcb'] at hcb
    subst hcb
    simp only [RiskManager.checkOrder, hcb']
    rw [if_neg (by simp), if_neg h2, if_neg h3, if_neg h4, if_pos h5]
  · intro t hen hcool
    have hcb : RiskManager.checkCircuitBreaker cfg ⟨true, some t⟩ env.now =
        (true, ⟨true, some t⟩) := by
      simp only [RiskManager.checkCircuitBreaker, hen, Option.getD_some]
      rw [if_neg (by simp), if_neg (by simp), if_neg (not_le.mpr hcool)]
    simp only [RiskManager.checkOrder, hcb, if_true]
  · intro t hen hcool
    have hcb : RiskManager.checkCircuitBreaker cfg ⟨true, some t⟩ env.now =
        (false, ⟨false, Option.none⟩) := by
      simp only [RiskManager.checkCircuitBreaker, hen, Option.getD_some]
      rw [if_neg (by simp), if_neg (by simp), if_pos (by simpa using hcool)]
    have hcb' : RiskManager.checkCircuitBreaker cfg ⟨false, Option.none⟩ env.now =
        (false, ⟨false, Option.none⟩) := by
      simp [RiskManager.checkCircuitBreaker]
    constructor
    · simp only [RiskManager.checkOrder, hcb, hcb']
    · rw [hcb']

/-- Witness for C6: a loss breach trips the breaker; five minutes later
the order is rejected by the breaker; sixty minutes later the call
behaves as from the cleared state. -/
theorem c6_circuit_breaker_witness :
    RiskManager.checkOrder ⟨1000, 100, 50, 100, true, 60⟩ ⟨false, Option.none⟩
        ⟨0, 0, 0, -200⟩ "BUY" 10 = (.rejectDailyLoss, ⟨true, some 0⟩)
    ∧ RiskManager.checkOrder ⟨1000, 100, 50, 100, true, 60⟩ ⟨true, some 0⟩
        ⟨5, 0, 0, -200⟩ "BUY" 10 = (.rejectBreaker, ⟨true, some 0⟩)
    ∧ RiskManager.checkOrder ⟨1000, 100, 50, 100, true, 60⟩ ⟨true, some 0⟩
        ⟨60, 0, 0, 0⟩ "BUY" 10 =
      RiskManager.checkOrder ⟨1000, 100, 50, 100, true, 60⟩ ⟨false, Option.none⟩
        ⟨60, 0, 0, 0⟩ "BUY" 10 := by
  refine ⟨?_, ?_, ?_⟩
  · exact (c6_circuit_breaker ⟨1000, 100, 50, 100, true, 60⟩ ⟨0, 0, 0, -200⟩
      "BUY" 10).1 ⟨false, Option.none⟩ (by rfl) (by norm_num) (by norm_num)
      (by norm_num) (by norm_num)
  · exact (c6_circuit_breaker ⟨1000, 100, 50, 100, true, 60⟩ ⟨5, 0, 0, -200⟩
      "BUY" 10).2.1 0 rfl (by norm_num)
  · exact ((c6_circuit_breaker ⟨1000, 100, 50, 100, true, 60⟩ ⟨60, 0, 0, 0⟩
      "BUY" 10).2.2 0 rfl (by norm_num)).1

/-- **C10.**  In the live path, an executed SELL whose realized P&L is
non-zero appends two trade rows, not one: the executor's row with NULL
`realized_pnl`, then a duplicate row whose reason is prefixed
`"P&L update: "` and which carries the rounded P&L; the daily trade count
therefore advances by two, and the daily P&L sum gains exactly the
duplicate row's P&L (the executor row contributes nothing). -/
theorem c10_duplicate_pnl_record (use_book_price : Bool) (slippage_bps : ℚ)
    (position : Option PositionManager.PMPos)
    (log : List DatabaseManager.TradeRec) (price amount : ℚ) (reason : String)
    (best_bid best_ask : Option ℚ)
    (hpnl : (PositionManager.updateAfterTrade position "SELL"
        (OrderExecutor.calcExecutionPrice use_book_price slippage_bps "SELL"
          price best_bid best_ask) amount).2 ≠ 0) :
    (StrategyHandler.executeTrade use_book_price slippage_bps position log "SELL"
        price amount reason best_bid best_ask).2.1 =
      log ++
        [⟨"SELL",
          OrderExecutor.calcExecutionPrice use_book_price slippage_bps "SELL"
            price best_bid best_ask,
          pyRound6 amount, Option.none, reason⟩,
         ⟨"SELL",
          OrderExecutor.calcExecutionPrice use_book_price slippage_bps "SELL"
            price best_bid best_ask,
          pyRound6 amount,
          some (pyRound6 ((PositionManager.updateAfterTrade position "SELL"
            (OrderExecutor.calcExecutionPrice use_book_price slippage_bps "SELL"
              price best_bid best_ask) amount).2)),
          "P&L update: " ++ reason⟩]
    ∧ DatabaseManager.tradesTodayCount
        ((StrategyHandler.executeTrade use_book_price slippage_bps position log
          "SELL" price amount reason best_bid best_ask).2.1) =
      DatabaseManager.tradesTodayCount log + 2
    ∧ DatabaseManager.getDailyPnl
        ((StrategyHandler.executeTrade use_book_price slippage_bps position log
          "SELL" price amount reason best_bid best_ask).2.1) =
      DatabaseManager.getDailyPnl log +
        pyRound6 ((PositionManager.updateAfterTrade position "SELL"
          (OrderExecutor.calcExecutionPrice use_book_price slippage_bps "SELL"
            price best_bid best_ask) amount).2) := by
  obtain ⟨x, hx⟩ : ∃ x,
      OrderExecutor.calcExecutionPrice use_book_price slippage_bps "SELL" price
        best_bid best_ask = pyRound6 x := ⟨_, rfl⟩
  have hepr : pyRound6 (OrderExecutor.calcExecutionPrice use_book_price
      slippage_bps "SELL" price best_bid best_ask) =
      OrderExecutor.calcExecutionPrice use_book_price slippage_bps "SELL" price
        best_bid best_ask := by
    rw [hx, pyRound6_idem]
  have hlog : (StrategyHandler.executeTrade use_book_price slippage_bps position
      log "SELL" price amount reason best_bid best_ask).2.1 =
      log ++
        [⟨"SELL",
          OrderExecutor.calcExecutionPrice use_book_price slippage_bps "SELL"
            price best_bid best_ask,
          pyRound6 amount, Option.none, reason⟩,
         ⟨"SELL",
          OrderExecutor.calcExecutionPrice use_book_price slippage_bps "SELL"
            price best_bid best_ask,
          pyRound6 amount,
          some (pyRound6 ((PositionManager.updateAfterTrade position "SELL"
            (OrderExecutor.calcExecutionPrice use_book_price slippage_bps "SELL"
              price best_bid best_ask) amount).2)),
          "P&L update: " ++ reason⟩] := by
    simp only [StrategyHandler.executeTrade, DatabaseManager.saveTrade,
      if_pos hpnl, Option.map_none', Option.map_some', pyRound6_idem, hepr,
      List.append_assoc, List.cons_append, List.nil_append]
  refine ⟨hlog, ?_, ?_⟩
  · rw [hlog]
    simp [DatabaseManager.tradesTodayCount]
  · rw [hlog,
      show ∀ r1 r2 : DatabaseManager.TradeRec,
          log ++ [r1, r2] = (log ++ [r1]) ++ [r2] from fun r1 r2 => by simp,
      getDailyPnl_append, getDailyPnl_append]
    simp only [DatabaseManager.getDailyPnl, List.foldl_cons, List.foldl_nil,
      Option.getD_some, Option.getD_none]
    ring

/-- Witness for C10: a SELL closing a 50-notional position bought at 0.50
and sold at 0.60 (no slippage) realizes 10 and leaves two rows, the
executor's with NULL P&L and the duplicate carrying 10. -/
theorem c10_duplicate_pnl_record_witness :
    (StrategyHandler.executeTrade true 0 (some ⟨50, 1/2⟩) [] "SELL" (3/5) 50
        "sig" Option.none Option.none).2.1 =
      [⟨"SELL", 3/5, 50, Option.none, "sig"⟩,
       ⟨"SELL", 3/5, 50, some 10, "P&L update: sig"⟩]
    ∧ DatabaseManager.tradesTodayCount
        ((StrategyHandler.executeTrade true 0 (some ⟨50, 1/2⟩) [] "SELL" (3/5) 50
          "sig" Option.none Option.none).2.1) = 2
    ∧ DatabaseManager.getDailyPnl
        ((StrategyHandler.executeTrade true 0 (some ⟨50, 1/2⟩) [] "SELL" (3/5) 50
          "sig" Option.none Option.none).2.1) = 10 := by
  have hep : OrderExecutor.calcExecutionPrice true 0 "SELL" (3/5) Option.none
      Option.none = 3/5 := by
    rw [calcExecutionPrice_sell]
    norm_num [pyRound6]
  have hupd : (PositionManager.updateAfterTrade (some ⟨50, 1/2⟩) "SELL"
      (OrderExecutor.calcExecutionPrice true 0 "SELL" (3/5) Option.none
        Option.none) 50).2 = 10 := by
    rw [hep, updateAfterTrade_sell 50 (1/2) (3/5) 50 (by norm_num)]
    norm_num
  have h := c10_duplicate_pnl_record true 0 (some ⟨50, 1/2⟩) [] (3/5) 50 "sig"
    Option.none Option.none (by rw [hupd]; norm_num)
  have h50 : pyRound6 (50 : ℚ) = 50 := by norm_num [pyRound6]
  have h10 : pyRound6 (10 : ℚ) = 10 := by norm_num [pyRound6]
  refine ⟨?_, ?_, ?_⟩
  · rw [h.1, hupd, hep, h50, h10]
    simp
  · rw [h.2.1]
    rfl
  · rw [h.2.2, hupd, h10]
    simp [DatabaseManager.getDailyPnl]

lemma accMaxAux_length (es : List ℚ) :
    ∀ m : ℚ, (PerformanceAnalyzer.accMaxAux m es).length = es.length := by
  induction es with
  | nil => intro m; rfl
  | cons e es ih => intro m; simp [PerformanceAnalyzer.accMaxAux, ih]

lemma accMax_length (es : List ℚ) :
    (PerformanceAnalyzer.accMax es).length = es.length := by
  cases es with
  | nil => rfl
  | cons e es => simp [PerformanceAnalyzer.accMax, accMaxAux_length]

lemma accMaxAux_getD (es : List ℚ) :
    ∀ (m : ℚ) (i : ℕ), i < es.length →
      (PerformanceAnalyzer.accMaxAux m es).getD i 0 =
        (es.take (i + 1)).foldl max m := by
  induction es with
  | nil => intro m i hi; simp at hi
  | cons e es ih =>
    intro m i hi
    cases i with
    | zero => simp [PerformanceAnalyzer.accMaxAux]
    | succ n =>
      simp only [PerformanceAnalyzer.accMaxAux, List.getD_cons_succ,
        List.take_succ_cons, List.foldl_cons]
      exact ih (max m e) n (by simpa using hi)

lemma accMax_getD (es : List ℚ) (i : ℕ) (hi : i < es.length) :
    (PerformanceAnalyzer.accMax es).getD i 0 =
      PerformanceAnalyzer.specRunMax es i := by
  cases es with
  | nil => simp at hi
  | cons e es =>
    cases i with
    | zero =>
      simp [PerformanceAnalyzer.accMax, PerformanceAnalyzer.specRunMax]
    | succ n =>
      simp only [PerformanceAnalyzer.accMax, PerformanceAnalyzer.specRunMax,
        List.getD_cons_succ, List.headI, List.take_succ_cons, List.foldl_cons,
        max_self]
      exact accMaxAux_getD es e n (by simpa using hi)

/-- **C9.**  For a non-empty equity list, `_calc_max_drawdown` returns the
maximum over all indices `i` of
`(runningMax[i] - equity[i]) / (runningMax[i] if positive else 1) * 100`,
and the sequence `[10000, 12000, 9000, 10000]` yields exactly 25. -/
theorem c9_max_drawdown (es : List ℚ) (hne : es ≠ []) :
    PerformanceAnalyzer.calcMaxDrawdown es =
      ((List.range es.length).map (fun i =>
        PerformanceAnalyzer.ddOf (PerformanceAnalyzer.specRunMax es i)
          (es.getD i 0))).foldl max
        (PerformanceAnalyzer.ddOf (PerformanceAnalyzer.specRunMax es 0)
          (es.getD 0 0))
    ∧ PerformanceAnalyzer.calcMaxDrawdown [10000, 12000, 9000, 10000] = 25 := by
  constructor
  · match es, hne with
    | e :: rest, _ =>
      have hdds :
          ((PerformanceAnalyzer.accMax (e :: rest)).zip (e :: rest)).map
            (fun p => PerformanceAnalyzer.ddOf p.1 p.2) =
          (List.range (e :: rest).length).map (fun i =>
            PerformanceAnalyzer.ddOf
              (PerformanceAnalyzer.specRunMax (e :: rest) i)
              ((e :: rest).getD i 0)) := by
        apply List.ext_getElem
        · simp [accMax_length]
        · intro n h1 h2
          have hn : n < (e :: rest).length := by
            simpa [accMax_length] using h1
          simp only [List.getElem_map, List.getElem_zip, List.getElem_range]
          have hlacc : n < (PerformanceAnalyzer.accMax (e :: rest)).length := by
            rw [accMax_length]; exact hn
          rw [← List.getD_eq_getElem _ 0 hlacc, ← List.getD_eq_getElem _ 0 hn,
            accMax_getD (e :: rest) n hn]
      simp only [PerformanceAnalyzer.calcMaxDrawdown]
      rw [hdds]
      congr 1
      have hlen : (e :: rest).length = rest.length + 1 := rfl
      rw [hlen, List.range_succ_eq_map]
      simp
  · norm_num [PerformanceAnalyzer.calcMaxDrawdown, PerformanceAnalyzer.accMax,
      PerformanceAnalyzer.accMaxAux, PerformanceAnalyzer.ddOf]

/-- Witness for C9 at P9's equity sequence. -/
theorem c9_max_drawdown_witness :
    PerformanceAnalyzer.calcMaxDrawdown [10000, 12000, 9000, 10000] = 25 :=
  (c9_max_drawdown [10000, 12000, 9000, 10000] (by simp)).2

lemma ingestTick_equity (st : BacktestEngine.BState) (tick : BacktestEngine.Tick)
    (price : ℚ) :
    (BacktestEngine.ingestTick st tick price).equity_curve = st.equity_curve := rfl

lemma runStep_equity_length {strat : BacktestEngine.SignalData → StrategyHandler.StratResult}
    {use_book_price : Bool} {slippage_bps : ℚ} {st st' : BacktestEngine.BState}
    {tick : BacktestEngine.Tick}
    (htotal : ∀ sd, ∃ d, strat sd = .dict d)
    (h : BacktestEngine.runStep strat use_book_price slippage_bps st tick = .ok st') :
    st'.equity_curve.length =
      st.equity_curve.length +
        (if BacktestEngine.tickPasses tick then 1 else 0) := by
  unfold BacktestEngine.runStep at h
  cases hp : tick.price with
  | none =>
    simp only [hp] at h
    cases h
    simp [BacktestEngine.tickPasses, hp]
  | some price =>
    simp only [hp] at h
    by_cases ha : tick.asset_id = ""
    · rw [if_pos ha] at h
      cases h
      simp [BacktestEngine.tickPasses, ha]
    · rw [if_neg ha] at h
      cases hs : strat (BacktestEngine.buildSignalData tick tick.asset_id price
          (BacktestEngine.ingestTick st tick price).positions
          (BacktestEngine.ingestTick st tick price).history_buffers) with
      | raises =>
        obtain ⟨d, hd⟩ := htotal (BacktestEngine.buildSignalData tick
          tick.asset_id price (BacktestEngine.ingestTick st tick price).positions
          (BacktestEngine.ingestTick st tick price).history_buffers)
        rw [hs] at hd
        cases hd
      | nonDict =>
        obtain ⟨d, hd⟩ := htotal (BacktestEngine.buildSignalData tick
          tick.asset_id price (BacktestEngine.ingestTick st tick price).positions
          (BacktestEngine.ingestTick st tick price).history_buffers)
        rw [hs] at hd
        cases hd
      | dict d =>
        simp only [hs] at h
        cases htp : BacktestEngine.tradePhase use_book_price slippage_bps tick
            price d (BacktestEngine.ingestTick st tick price).capital
            (BacktestEngine.ingestTick st tick price).positions
            (BacktestEngine.ingestTick st tick price).trades with
        | error e =>
          simp only [htp] at h
          cases h
        | ok tri =>
          obtain ⟨capital', positions', trades'⟩ := tri
          simp only [htp] at h
          cases h
          simp [BacktestEngine.recordEquity, BacktestEngine.tickPasses, hp, ha,
            BacktestEngine.ingestTick]

lemma runLoop_equity_length
    {strat : BacktestEngine.SignalData → StrategyHandler.StratResult}
    {use_book_price : Bool} {slippage_bps : ℚ}
    (htotal : ∀ sd, ∃ d, strat sd = .dict d) :
    ∀ (ticks : List BacktestEngine.Tick) (st stf : BacktestEngine.BState),
      BacktestEngine.runLoop strat use_book_price slippage_bps st ticks = .ok stf →
      stf.equity_curve.length =
        st.equity_curve.length + ticks.countP BacktestEngine.tickPasses := by
  intro ticks
  induction ticks with
  | nil =>
    intro st stf h
    cases h
    simp
  | cons t ts ih =>
    intro st stf h
    unfold BacktestEngine.runLoop at h
    cases hs : BacktestEngine.runStep strat use_book_price slippage_bps st t with
    | error e =>
      rw [hs] at h
      cases h
    | ok st' =>
      rw [hs] at h
      have h1 := runStep_equity_length htotal hs
      have h2 := ih st' stf h
      rw [h2, h1, List.countP_cons]
      by_cases hpass : BacktestEngine.tickPasses t
      · simp [hpass]
        try omega
      · simp [hpass]
        try omega

/-- **C2 (amended).**  When the strategy function always returns a mapping
(and the run raises no exception), `BacktestEngine.run` appends exactly one
equity-curve point per tick that passes the step-1 filter (price present,
non-empty `asset_id`); a tick on which the strategy raises or returns a
non-mapping contributes no equity point, because the `continue` skips the
equity record as well as the trading. -/
theorem c2_equity_curve_length
    (strat : BacktestEngine.SignalData → StrategyHandler.StratResult)
    (initial_capital : ℚ) (use_book_price : Bool) (slippage_bps : ℚ)
    (ticks : List BacktestEngine.Tick)
    (htotal : ∀ sd, ∃ d, strat sd = .dict d)
    (hok : BacktestEngine.exceptIsOk
      (BacktestEngine.run strat initial_capital use_book_price slippage_bps ticks)
        = true) :
    (BacktestEngine.run strat initial_capital use_book_price slippage_bps
        ticks).map (fun r => r.equity_curve.length) =
      .ok (ticks.countP BacktestEngine.tickPasses) := by
  unfold BacktestEngine.run at *
  cases hl : BacktestEngine.runLoop strat use_book_price slippage_bps
      ⟨initial_capital, [], [], [], [], []⟩ ticks with
  | error e =>
    simp only [hl] at hok
    simp [BacktestEngine.exceptIsOk] at hok
  | ok st =>
    have hlen := runLoop_equity_length htotal ticks _ st hl
    simp only [hl, Except.map]
    simp only [List.length_nil, zero_add] at hlen
    rw [hlen]

/-- C2 counterexample input: one tick with a price and a non-empty
`asset_id` on which the strategy raises; the claim predicts one equity
point, the engine records none. -/
theorem c2_equity_curve_length_counterexample :
    (BacktestEngine.run (fun _ => .raises) 10000 true 0
        [⟨"a", some (1/2), "m", Option.none, Option.none, some "ts"⟩]).map
      (fun r => r.equity_curve.length) = .ok 0
    ∧ ([⟨"a", some (1/2), "m", Option.none, Option.none, some "ts"⟩] :
        List BacktestEngine.Tick).countP BacktestEngine.tickPasses = 1
    ∧ (0 : ℕ) ≠ 1 := by
  refine ⟨rfl, rfl, by norm_num⟩

/-- Witness for the amended C2: a total HOLD strategy over one passing
tick yields exactly one equity point. -/
theorem c2_equity_curve_length_witness :
    (BacktestEngine.run
        (fun _ => .dict ⟨some "HOLD", some (.num 0), some "h"⟩) 10000 true 0
        [⟨"a", some (1/2), "m", Option.none, Option.none, some "ts"⟩]).map
      (fun r => r.equity_curve.length) = .ok 1 := by
  have h := c2_equity_curve_length
    (fun _ => .dict ⟨some "HOLD", some (.num 0), some "h"⟩) 10000 true 0
    [⟨"a", some (1/2), "m", Option.none, Option.none, some "ts"⟩]
    (fun sd => ⟨_, rfl⟩) (by rfl)
  exact h

/-- **C8.**  The live handler's `_validate_signal` rejects a mapping whose
`amount` is a non-numeric string (so the live path treats it as HOLD), but
`BacktestEngine.run` evaluates `amount > 0` on that value outside any
try/except, so the comparison's `TypeError` escapes `run`: the claim that
both paths degrade to HOLD fails on the backtest side. -/
theorem c8_invalid_amount_crash :
    BacktestEngine.run
        (fun _ => .dict ⟨some "BUY", some (.strBad "abc"), some "r"⟩) 10000 true 0
        [⟨"a", some (1/2), "m", Option.none, Option.none, some "ts"⟩]
      = .error ()
    ∧ StrategyHandler.validateSignal
        (.dict ⟨some "BUY", some (.strBad "abc"), some "r"⟩) = false := by
  exact ⟨rfl, rfl⟩

